import Mathlib

/-!
Shallow embedding of the asynchronous-futures core of the repository:

* `src/training/storage/futures.py` — class `FuturesStorage`: an in-memory
  cache (`_memory_store`, a Python dict guarded by a lock) in front of a
  SQLite table `futures`.
* `src/training/core/task_manager.py` — class `TaskManager`: saves a pending
  future, runs the work, and records the outcome.
* `src/training/routers/futures.py` — endpoint `retrieve_future`: maps the
  looked-up future to an HTTP response.

Modelling conventions:

* JSON-serializable Python values are the inductive `Json` (numbers as `Int`;
  no claim under study depends on floats).
* Python dicts used as keyed stores are association lists `Dict α` with
  replace-on-insert semantics (`dictSet`).  Iteration order differs from
  CPython insertion order, which no modelled claim observes.
* Mutable Python objects (the nested `payload` / `result` dicts) live in a
  heap `List Json`; a `MemFuture` holds heap addresses for them, mirroring
  Python reference semantics.  In-place mutation of a nested object is
  `heapWrite`.  A top-level future dict is rendered as the record value: the
  cache-hit `dict.copy()` becomes the record returned with its nested
  addresses shared, and the cache-miss path — where the source returns the
  very dict it has just installed in the cache, with no copy — returns the
  record that now sits in the cache; a caller's top-level write through that
  returned alias is therefore a write to the cache slot, modelled by
  `aliasWriteStatus`.
* The SQLite row stores `payload` / `result` serialized with `json.dumps`.
  Since `json.dumps` is injective on these values, round-trips through
  `json.loads`, and never produces the empty string (so the Python truthiness
  test `if row[5]` coincides with non-NULL), the serialized columns are
  modelled by the parsed value itself (`Json`, and `Option Json` for the
  nullable `result` column).
* `datetime.utcnow().isoformat()` timestamps are opaque `String`s supplied as
  explicit parameters; the code compares them with `<`, which on the
  fixed-width ISO format agrees with chronological order.
* SQLite I/O errors (the spec's StorageFailure) are outside the model: every
  operation is a total function on `StorageState`.
-/

/-- JSON-like values: the payloads and results the store treats as opaque. -/
inductive Json where
  | null : Json
  | bool (b : Bool) : Json
  | num (n : Int) : Json
  | str (s : String) : Json
  | arr (elems : List Json) : Json
  | obj (fields : List (String × Json)) : Json

/-- Python truthiness (`bool(v)`) of a JSON value, as used by
`if result and ...` and `error or "Operation failed"` in the router. -/
def pyTruthy : Json → Bool
  | .null => false
  | .bool b => b
  | .num n => n != 0
  | .str s => s != ""
  | .arr elems => !elems.isEmpty
  | .obj fields => !fields.isEmpty

/-- `"error" in result` for a JSON object's field list. -/
def objHasKey (fields : List (String × Json)) (k : String) : Bool :=
  fields.any (fun p => p.1 == k)

/-- `result["error"]` lookup in a JSON object's field list. -/
def objGet (fields : List (String × Json)) (k : String) : Option Json :=
  (fields.find? (fun p => p.1 == k)).map (·.2)

/-- A Python dict used as a keyed store (`_memory_store`, the SQLite table
keyed by `request_id`, the legacy `futures_store`). -/
abbrev Dict (α : Type) := List (String × α)

/-- Dict lookup (`d[k]` / `d.get(k)` / `SELECT ... WHERE request_id = ?`). -/
def dictGet {α : Type} (d : Dict α) (k : String) : Option α :=
  (d.find? (fun p => p.1 == k)).map (·.2)

/-- Dict insert-or-replace (`d[k] = v` / `INSERT OR REPLACE` /
`UPDATE ... WHERE request_id = ?`). -/
def dictSet {α : Type} (d : Dict α) (k : String) (v : α) : Dict α :=
  (k, v) :: d.filter (fun p => p.1 != k)

/-- The cached form of a future: the Python dict built by `save_future` /
`_load_from_db`.  `payload` and `result` are heap addresses of the nested
mutable objects; all other fields are immutable Python strings (or `None`). -/
structure MemFuture where
  request_id : String
  model_id : Option String
  operation : String
  payload : Nat
  status : String
  result : Option Nat
  created_at : String
  updated_at : String
deriving DecidableEq

/-- One row of the SQLite `futures` table (serialized columns modelled by
their parsed values; `result` is the nullable column). -/
structure DBRow where
  model_id : Option String
  operation : String
  payload : Json
  status : String
  result : Option Json
  created_at : String
  updated_at : String

/-- The state of a `FuturesStorage` instance: the `_memory_store` cache, the
heap of nested mutable objects, and the SQLite table. -/
structure StorageState where
  mem : Dict MemFuture
  heap : List Json
  db : Dict DBRow

/-- The empty storage right after `_init_database` on a fresh file. -/
def StorageState.empty : StorageState := ⟨[], [], []⟩

/-- Allocate a fresh heap object (a `json.loads` result, or the object the
caller passes in, copied into our heap). -/
def alloc (v : Json) (s : StorageState) : Nat × StorageState :=
  (s.heap.length, { s with heap := s.heap ++ [v] })

/-- Dereference a heap address. -/
def heapVal (s : StorageState) (a : Nat) : Json :=
  s.heap.getD a Json.null

/-- In-place mutation of the nested object at address `a` (e.g.
`fut["payload"]["k"] = v` performed by a caller on a value returned by
`get_future`). -/
def heapWrite (a : Nat) (v : Json) (s : StorageState) : StorageState :=
  { s with heap := s.heap.set a v }

/-- Rebinding a top-level field of the dict stored at
`_memory_store[request_id]` (`fut["status"] = v`) — the same dict assignment
`update_status` itself performs at futures.py:184.  After a cache-miss
`get_future`, the dict handed to the caller IS the cache slot
(futures.py:239 installs `future`, futures.py:240 returns the same object),
so a caller's top-level write through that returned value is exactly this
operation. -/
def aliasWriteStatus (request_id status2 : String) (s : StorageState) : StorageState :=
  match dictGet s.mem request_id with
  | some f => { s with mem := dictSet s.mem request_id { f with status := status2 } }
  | none => s

/-- The current value of a cached future's nested payload object. -/
def payloadVal (s : StorageState) (f : MemFuture) : Json :=
  heapVal s f.payload

/-- The current value of a cached future's result: `none` is Python `None`. -/
def resultVal (s : StorageState) (f : MemFuture) : Option Json :=
  f.result.map (heapVal s)

/-- `FuturesStorage.save_future` (futures.py:101-155): build the pending
future dict, install it in the cache, and `INSERT OR REPLACE` the row.
`now` is `datetime.utcnow().isoformat()`. -/
def save_future (now request_id operation : String) (payload : Json)
    (model_id : Option String) (s : StorageState) : StorageState :=
  let (pa, s1) := alloc payload s
  let future_data : MemFuture :=
    { request_id := request_id
      model_id := model_id
      operation := operation
      payload := pa
      status := "pending"
      result := none
      created_at := now
      updated_at := now }
  let row : DBRow :=
    { model_id := model_id
      operation := operation
      payload := payload
      status := "pending"
      result := none
      created_at := now
      updated_at := now }
  { s1 with mem := dictSet s1.mem request_id future_data,
            db := dictSet s1.db request_id row }

/-- `FuturesStorage._load_from_db` (futures.py:242-268): read the row, parse
the serialized columns into fresh objects (`json.loads`). -/
def load_from_db (request_id : String) (s : StorageState) :
    Option MemFuture × StorageState :=
  match dictGet s.db request_id with
  | none => (none, s)
  | some row =>
    let (pa, s1) := alloc row.payload s
    let (res, s2) :=
      match row.result with
      | none => ((none : Option Nat), s1)
      | some r => let (ra, s2) := alloc r s1; (some ra, s2)
    (some { request_id := request_id
            model_id := row.model_id
            operation := row.operation
            payload := pa
            status := row.status
            result := res
            created_at := row.created_at
            updated_at := row.updated_at }, s2)

/-- `FuturesStorage.update_status` (futures.py:157-217).  Memory phase: if
the id is not cached, try to load it from the database; if it is found
nowhere, return `False` without mutating anything.  Otherwise mutate the
cached dict in place: `status`, `updated_at`, and `result` only when the
argument is not `None`.  SQL phase: `UPDATE` the row unconditionally setting
`status`, `result = _serialize_result(result)` (NULL when the argument is
`None`), `updated_at`; return `rowcount > 0`. -/
def update_status (now request_id status : String) (result : Option Json)
    (s : StorageState) : Bool × StorageState :=
  let cached : Option (MemFuture × StorageState) :=
    match dictGet s.mem request_id with
    | some f => some (f, s)
    | none =>
      match load_from_db request_id s with
      | (none, _) => none
      | (some f, s1) => some (f, { s1 with mem := dictSet s1.mem request_id f })
  match cached with
  | none => (false, s)
  | some (f, s1) =>
    let (f2, s2) :=
      match result with
      | none => ({ f with status := status, updated_at := now }, s1)
      | some r =>
        let (ra, s2) := alloc r s1
        ({ f with status := status, updated_at := now, result := some ra }, s2)
    let s3 := { s2 with mem := dictSet s2.mem request_id f2 }
    match dictGet s3.db request_id with
    | some row =>
      let row2 : DBRow := { row with status := status, result := result, updated_at := now }
      (true, { s3 with db := dictSet s3.db request_id row2 })
    | none => (false, s3)

/-- `FuturesStorage.get_future` (futures.py:219-240).  Cache hit: returns
`self._memory_store[request_id].copy()` — a shallow copy: a fresh top-level
dict (rendered as the record value) whose nested addresses are shared with
the cached entry.  Cache miss: loads from the database, installs the loaded
dict in the cache and returns that *same* dict with no copy (futures.py:
239-240) — rendered as the record value now sitting in the cache, so a
caller's top-level write through it is `aliasWriteStatus` on the cache
slot. -/
def get_future (request_id : String) (s : StorageState) :
    Option MemFuture × StorageState :=
  match dictGet s.mem request_id with
  | some f => (some f, s)
  | none =>
    match load_from_db request_id s with
    | (none, s1) => (none, s1)
    | (some f, s1) => (some f, { s1 with mem := dictSet s1.mem request_id f })

/-- Lexicographic comparison of character lists. -/
def charsLt : List Char → List Char → Bool
  | _, [] => false
  | [], _ :: _ => true
  | a :: as, b :: bs => if a < b then true else if b < a then false else charsLt as bs

/-- Lexicographic `<` on strings: the semantics of Python's `str` comparison
(`future["created_at"] < cutoff_str`) and of SQLite's TEXT comparison
(`created_at < ?`), which agree on ASCII ISO-8601 timestamps. -/
def strLt (a b : String) : Bool := charsLt a.toList b.toList

/-- `FuturesStorage.cleanup_old_futures` (futures.py:322-366) with the
cutoff timestamp `(utcnow() - timedelta(hours=max_age_hours)).isoformat()`
passed explicitly.  Removes the cache entries and rows whose `created_at`
compares `<` the cutoff and returns `memory_removed + db_removed`. -/
def cleanup_old_futures (cutoff : String) (s : StorageState) :
    Nat × StorageState :=
  let to_remove := s.mem.filter (fun p => strLt p.2.created_at cutoff)
  let memory_removed := to_remove.length
  let db_removed := (s.db.filter (fun p => strLt p.2.created_at cutoff)).length
  (memory_removed + db_removed,
   { s with mem := s.mem.filter (fun p => !strLt p.2.created_at cutoff),
            db := s.db.filter (fun p => !strLt p.2.created_at cutoff) })

/-- `TaskManager.create_task`'s inner `wrapped_task` (task_manager.py:101-134)
at the moment the work finishes: on success, record `completed` with the
result; on a raised error with message `e`, record `failed` with
`{"error": str(e)}`.  The error is consumed by the `except` block — the
wrapper's Lean type is a total state transformer, mirroring that no
language-level failure escapes the supervised task (SQLite failures, the
spec's StorageFailure, are outside the model). -/
def wrapped_task (finished_at request_id : String) (outcome : Except String Json)
    (s : StorageState) : StorageState :=
  match outcome with
  | .ok result => (update_status finished_at request_id "completed" (some result) s).2
  | .error e =>
    (update_status finished_at request_id "failed"
      (some (Json.obj [("error", Json.str e)])) s).2

/-- `TaskManager.create_task` (task_manager.py:55-141) followed by the
completion of the scheduled task: `save_future` with status pending, then
`wrapped_task` when the work finishes with `outcome`. -/
def create_task_run (created_at finished_at request_id operation model_id : String)
    (payload : Json) (outcome : Except String Json) (s : StorageState) : StorageState :=
  wrapped_task finished_at request_id outcome
    (save_future created_at request_id operation payload (some model_id) s)

/-- What `retrieve_future` (routers/futures.py:95-138) reads off a looked-up
future dict: its `status`, its `result` value, and the value of a top-level
`"error"` key when one exists (possible only for legacy-store dicts; the
dicts built by `FuturesStorage` have a fixed key set without `"error"`). -/
structure FutureView where
  status : String
  result : Option Json
  errorField : Option Json

/-- The view of a storage future at response time (nested `result` object
dereferenced when the response is built). -/
def MemFuture.view (f : MemFuture) (s : StorageState) : FutureView :=
  { status := f.status, result := resultVal s f, errorField := none }

/-- The HTTP outcome of `retrieve_future`: 404, 408, 200 with the result as
body (`none` renders as JSON `null`), or 500 with an error detail. -/
inductive RetrieveResponse where
  | notFound : RetrieveResponse
  | stillPending : RetrieveResponse
  | ok (body : Option Json) : RetrieveResponse
  | err (detail : Json) : RetrieveResponse

/-- The status dispatch of `retrieve_future` (routers/futures.py:104-138):
`completed` → 200 with `future.get("result", {})`; `failed` → 500 with
`result["error"]` if `result` is a truthy dict containing `"error"`, else a
top-level `future["error"]`, with `error or "Operation failed"` as the
detail; anything else (`pending`) → 408. -/
def futureResponse (fv : FutureView) : RetrieveResponse :=
  if fv.status == "completed" then
    .ok fv.result
  else if fv.status == "failed" then
    let error : Option Json :=
      match fv.result with
      | some (Json.obj fields) =>
        if !fields.isEmpty && objHasKey fields "error" then objGet fields "error"
        else fv.errorField
      | _ => fv.errorField
    match error with
    | some e => .err (if pyTruthy e then e else Json.str "Operation failed")
    | none => .err (Json.str "Operation failed")
  else
    .stillPending

/-- Endpoint `retrieve_future` (routers/futures.py:55-138): look the id up in
`FuturesStorage` (read-through, may populate the cache); fall back to the
legacy `futures_store` dict; 404 when both miss.  `poll_tracking` only feeds
logging and is omitted. -/
def retrieve_future (request_id : String) (futures_store : Dict FutureView)
    (s : StorageState) : RetrieveResponse × StorageState :=
  match get_future request_id s with
  | (some f, s1) => (futureResponse (f.view s1), s1)
  | (none, s1) =>
    match dictGet futures_store request_id with
    | some fv => (futureResponse fv, s1)
    | none => (.notFound, s1)

/-- One API-level operation on a `FuturesStorage` instance, including a
caller mutating a nested object it obtained from `get_future`
(`mutate`) — the alphabet of traces for the terminal-state claims. -/
inductive StoreOp where
  | save (now request_id operation : String) (payload : Json) (model_id : Option String)
  | update (now request_id status : String) (result : Option Json)
  | get (request_id : String)
  | cleanup (cutoff : String)
  | mutate (a : Nat) (v : Json)

/-- Effect of one operation on the storage state. -/
def StoreOp.exec : StoreOp → StorageState → StorageState
  | .save now id op p mid, s => save_future now id op p mid s
  | .update now id st r, s => (update_status now id st r s).2
  | .get id, s => (get_future id s).2
  | .cleanup c, s => (cleanup_old_futures c s).2
  | .mutate a v, s => heapWrite a v s

/-- Run a sequence of operations left to right. -/
def execTrace (ops : List StoreOp) (s : StorageState) : StorageState :=
  ops.foldl (fun s op => op.exec s) s

/-- Does this operation write the future of the given `request_id`
(a `save_future` or `update_status` call targeting it)? -/
def StoreOp.writesTo : StoreOp → String → Bool
  | .save _ id _ _ _, id2 => id == id2
  | .update _ id _ _, id2 => id == id2
  | _, _ => false

/-- Keys of a modelled Python dict are pairwise distinct (true of every
state built by the API, needed only where entries are counted). -/
def keysNodup {α : Type} (d : Dict α) : Prop :=
  (d.map (·.1)).Nodup

instance {α : Type} (d : Dict α) : Decidable (keysNodup d) := by
  unfold keysNodup
  infer_instance

/-! ### Dictionary lemmas -/

theorem find?_filter_of_imp {α : Type} (l : List α) (p q : α → Bool)
    (h : ∀ a, p a = true → q a = true) :
    (l.filter q).find? p = l.find? p := by
  induction l with
  | nil => rfl
  | cons a t ih =>
    cases hq : q a with
    | true =>
      rw [List.filter_cons_of_pos hq]
      cases hp : p a with
      | true => simp [List.find?, hp]
      | false => simp [List.find?, hp, ih]
    | false =>
      have hp : p a = false := by
        cases hpa : p a
        · rfl
        · rw [h a hpa] at hq; cases hq
      rw [List.filter_cons_of_neg (by simp [hq])]
      simp [List.find?, hp, ih]

theorem dictGet_set_self {α : Type} (d : Dict α) (k : String) (v : α) :
    dictGet (dictSet d k v) k = some v := by
  simp [dictGet, dictSet, List.find?]

theorem dictGet_set_ne {α : Type} (d : Dict α) {k k2 : String} (v : α) (h : k2 ≠ k) :
    dictGet (dictSet d k v) k2 = dictGet d k2 := by
  have hk : (k == k2) = false := beq_eq_false_iff_ne.mpr (fun e => h e.symm)
  unfold dictGet dictSet
  simp only [List.find?, hk]
  rw [find?_filter_of_imp]
  intro a ha
  have ha' : a.1 = k2 := by simpa using ha
  simp only [bne, ha']
  simpa using h

theorem mem_of_dictGet {α : Type} {d : Dict α} {k : String} {v : α}
    (h : dictGet d k = some v) : (k, v) ∈ d := by
  unfold dictGet at h
  cases hf : d.find? (fun e => e.1 == k) with
  | none => rw [hf] at h; cases h
  | some e =>
    rw [hf] at h
    have hm := List.mem_of_find?_eq_some hf
    have hp := List.find?_some hf
    have hk : e.1 = k := by simpa using hp
    obtain ⟨e1, e2⟩ := e
    simp only [Option.map_some', Option.some.injEq] at h
    simp only at hk
    rw [← hk, ← h] at *
    exact hm

theorem not_mem_of_dictGet_none {α : Type} {d : Dict α} {k : String}
    (h : dictGet d k = none) (v : α) : (k, v) ∉ d := by
  intro hmem
  unfold dictGet at h
  cases hf : d.find? (fun e => e.1 == k) with
  | none =>
    have := List.find?_eq_none.mp hf (k, v) hmem
    simp at this
  | some e => rw [hf] at h; cases h

theorem mem_dictSet_self {α : Type} {d : Dict α} {k : String} {v w : α}
    (h : (k, v) ∈ dictSet d k w) : v = w := by
  unfold dictSet at h
  rcases List.mem_cons.mp h with h1 | h2
  · cases h1; rfl
  · have := (List.mem_filter.mp h2).2
    simp at this

theorem mem_dictSet_ne {α : Type} {d : Dict α} {k k2 : String} {v w : α}
    (hne : k ≠ k2) (h : (k, v) ∈ dictSet d k2 w) : (k, v) ∈ d := by
  unfold dictSet at h
  rcases List.mem_cons.mp h with h1 | h2
  · exact absurd (congrArg Prod.fst h1) hne
  · exact List.mem_of_mem_filter h2

theorem dictGet_eq_none_of_not_mem_keys {α : Type} {d : Dict α} {k : String}
    (h : k ∉ d.map (·.1)) : dictGet d k = none := by
  unfold dictGet
  rw [List.find?_eq_none.mpr]
  · rfl
  · intro e he hek
    exact h (List.mem_map.mpr ⟨e, he, by simpa using hek⟩)

theorem dictGet_filter_nodup {α : Type} {d : Dict α} (hnd : keysNodup d)
    (q : String × α → Bool) (k : String) :
    dictGet (d.filter q) k
      = (dictGet d k).bind (fun v => if q (k, v) then some v else none) := by
  induction d with
  | nil => rfl
  | cons e t ih =>
    obtain ⟨a, b⟩ := e
    have hnd' : keysNodup t := (List.nodup_cons.mp hnd).2
    have hp1 : a ∉ t.map (·.1) := (List.nodup_cons.mp hnd).1
    by_cases hk : a = k
    · subst hk
      cases hq : q (a, b) with
      | true =>
        rw [List.filter_cons_of_pos hq]
        simp [dictGet, List.find?, hq]
      | false =>
        rw [List.filter_cons_of_neg (by simp [hq])]
        have hnone : dictGet (t.filter q) a = none := by
          apply dictGet_eq_none_of_not_mem_keys
          intro hmem
          apply hp1
          rcases List.mem_map.mp hmem with ⟨x, hx, hfst⟩
          exact List.mem_map.mpr ⟨x, List.mem_of_mem_filter hx, hfst⟩
        rw [hnone]
        simp [dictGet, List.find?, hq]
    · have hhead : (a == k) = false := beq_eq_false_iff_ne.mpr hk
      have step : dictGet (((a, b) :: t).filter q) k = dictGet (t.filter q) k := by
        cases hq : q (a, b) with
        | true =>
          rw [List.filter_cons_of_pos hq]
          simp [dictGet, List.find?, hhead]
        | false =>
          rw [List.filter_cons_of_neg (by simp [hq])]
      have step2 : dictGet ((a, b) :: t) k = dictGet t k := by
        simp [dictGet, List.find?, hhead]
      rw [step, step2, ih hnd']

/-! ### Heap lemmas -/

theorem getD_append_cons {α : Type} (l : List α) (a : α) (l2 : List α) (d : α) :
    (l ++ a :: l2).getD l.length d = a := by
  induction l with
  | nil => rfl
  | cons x t ih => simpa using ih

theorem getElem_append_two {α : Type} (l : List α) (a b : α) :
    (l ++ [a, b])[l.length + 1] = b := by
  induction l with
  | nil => rfl
  | cons x t ih => simpa using ih

theorem getD_set_self {α : Type} (l : List α) (i : Nat) (h : i < l.length) (v d : α) :
    (l.set i v).getD i d = v := by
  simp [List.getD, List.getElem?_set_self, h]

/-! ### Shared concrete states for witnesses and counterexamples -/

/-- A payload object. -/
def exPayload : Json := Json.obj [("k", Json.num 0)]

/-- A result object. -/
def exResult : Json := Json.obj [("x", Json.num 1)]

/-- One future `r1` saved (pending) on an empty store. -/
def exSaved : StorageState :=
  save_future "2024-01-01T00:00:00" "r1" "op" exPayload none .empty

/-- `r1` subsequently completed with result `exResult`. -/
def exCompleted : StorageState :=
  (update_status "2024-01-01T00:00:10" "r1" "completed" (some exResult) exSaved).2

/-! ### Claims -/

/-- Claim C2: round trip — for every request id and JSON-serializable result,
`create(request_id, op, payload)` then `update(request_id, completed, R)`
then `get(request_id)` returns a future with status `completed` and a result
structurally equal to `R` (stated over the result argument as passed in
Python, where `None`/JSON null is `none`).  Holds from any prior state. -/
theorem round_trip_create_update_get
    (s : StorageState) (t1 t2 request_id operation : String)
    (payload : Json) (model_id : Option String) (r : Option Json) :
    ∃ f, (get_future request_id
            (update_status t2 request_id "completed" r
              (save_future t1 request_id operation payload model_id s)).2).1 = some f
      ∧ f.status = "completed"
      ∧ resultVal (get_future request_id
            (update_status t2 request_id "completed" r
              (save_future t1 request_id operation payload model_id s)).2).2 f = r := by
  cases r with
  | none =>
    simp only [save_future, alloc, update_status, dictGet_set_self, get_future, resultVal]
    simp [dictGet_set_self]
  | some rv =>
    simp only [save_future, alloc, update_status, dictGet_set_self, get_future, resultVal]
    simp [dictGet_set_self, heapVal, getElem_append_two]

/-- Claim C4: when the submitted work raises an error with message `m`, the
supervisor records the future as `failed` with result `{"error": m}`; the
error is consumed inside `wrapped_task`'s `except` block and never re-raised
to the submitter — correspondingly `create_task_run`/`wrapped_task` are total
state transformers (no error in their result type), and the recorded state is
what a subsequent `get` observes. -/
theorem work_failure_recorded
    (s : StorageState) (t1 t2 request_id operation model_id : String)
    (payload : Json) (m : String) :
    ∃ f, (get_future request_id
            (create_task_run t1 t2 request_id operation model_id payload
              (Except.error m) s)).1 = some f
      ∧ f.status = "failed"
      ∧ resultVal (get_future request_id
            (create_task_run t1 t2 request_id operation model_id payload
              (Except.error m) s)).2 f
          = some (Json.obj [("error", Json.str m)]) := by
  simp only [create_task_run, wrapped_task, save_future, alloc, update_status,
    dictGet_set_self, get_future, resultVal]
  simp [dictGet_set_self, heapVal, getElem_append_two]

/-- Claim C9: `update(request_id, status, result=None)` on a future whose
cached result is non-null leaves the cached result in place (the in-memory
branch only assigns `result` when the argument is not `None`) while the SQL
`UPDATE` unconditionally writes `_serialize_result(None) = NULL` into the
row's `result` column — afterwards the cache and the persistent store
disagree: a `get` served from the cache still returns the old result, while a
`get` after a cache reset returns `None`. -/
theorem update_none_result_diverges
    (s : StorageState) (now request_id st : String) (f : MemFuture) (a : Nat)
    (row : DBRow)
    (hmem : dictGet s.mem request_id = some f)
    (hres : f.result = some a)
    (hdb : dictGet s.db request_id = some row) :
    (dictGet (update_status now request_id st none s).2.mem request_id).map (·.result)
        = some (some a)
    ∧ (dictGet (update_status now request_id st none s).2.db request_id).map (·.result)
        = some none
    ∧ (∃ g, (get_future request_id (update_status now request_id st none s).2).1 = some g
          ∧ resultVal (get_future request_id (update_status now request_id st none s).2).2 g
              = some (heapVal s a))
    ∧ (∃ g2, (get_future request_id
                { (update_status now request_id st none s).2 with mem := [] }).1 = some g2
          ∧ resultVal (get_future request_id
                { (update_status now request_id st none s).2 with mem := [] }).2 g2 = none)
    ∧ some (heapVal s a) ≠ (none : Option Json) := by
  simp only [update_status, hmem, hdb, get_future, load_from_db, alloc, resultVal,
    dictGet_set_self, heapVal]
  simp [dictGet_set_self, dictGet, List.find?, hres, heapVal, List.getD]

/-- Claim C10: if a `request_id` is cached but its row is missing from the
persistent store, `update_status` first mutates the cached entry (status,
result, `updated_at`) and only then runs the SQL `UPDATE`, whose zero
rowcount makes the call return `False` — the "not found" report arrives
after the cache has already been changed. -/
theorem update_cache_only_false_but_mutates
    (s : StorageState) (now request_id st : String) (r : Json) (f : MemFuture)
    (hmem : dictGet s.mem request_id = some f)
    (hdb : dictGet s.db request_id = none) :
    (update_status now request_id st (some r) s).1 = false
    ∧ dictGet (update_status now request_id st (some r) s).2.mem request_id
        = some { f with status := st, updated_at := now, result := some s.heap.length }
    ∧ heapVal (update_status now request_id st (some r) s).2 s.heap.length = r := by
  simp only [update_status, hmem, hdb, alloc, heapVal]
  simp [dictGet_set_self, getD_append_cons]

theorem getD_append_index {α : Type} (l l2 : List α) (i : Nat) (d : α) :
    (l ++ l2).getD (l.length + i) d = l2.getD i d := by
  induction l with
  | nil => simp
  | cons x t ih => simpa [Nat.succ_add] using ih

/-- The cached future `r1` as it stands in `exCompleted` (payload at heap
address 0, result at heap address 1). -/
def exFut : MemFuture :=
  { request_id := "r1", model_id := none, operation := "op", payload := 0,
    status := "completed", result := some 1,
    created_at := "2024-01-01T00:00:00", updated_at := "2024-01-01T00:00:10" }

/-- The database row for `r1` as it stands in `exCompleted`. -/
def exRow : DBRow :=
  { model_id := none, operation := "op", payload := exPayload,
    status := "completed", result := some exResult,
    created_at := "2024-01-01T00:00:00", updated_at := "2024-01-01T00:00:10" }

/-- `exCompleted` with the persistent store emptied: `r1` is cached but has
no row. -/
def exCacheOnly : StorageState := { exCompleted with db := [] }

/-- `exCompleted` after `update_status("r1", "failed", result=None)`: the
cache still holds the old result, the row's result column is NULL. -/
def exDivergent : StorageState :=
  (update_status "2024-01-01T00:00:20" "r1" "failed" none exCompleted).2

/-- Witness for C9 at a concrete store. -/
theorem update_none_result_diverges_witness :
    dictGet exCompleted.mem "r1" = some exFut
    ∧ exFut.result = some 1
    ∧ dictGet exCompleted.db "r1" = some exRow
    ∧ (dictGet (update_status "2024-01-01T00:00:20" "r1" "failed" none exCompleted).2.mem
        "r1").map (·.result) = some (some 1)
    ∧ (dictGet (update_status "2024-01-01T00:00:20" "r1" "failed" none exCompleted).2.db
        "r1").map (·.result) = some none := by
  have h := update_none_result_diverges exCompleted "2024-01-01T00:00:20" "r1" "failed"
    exFut 1 exRow rfl rfl rfl
  exact ⟨rfl, rfl, rfl, h.1, h.2.1⟩

/-- The cached entry for `r1` after the cache-only update of the C10
witness: status and `updated_at` rewritten, result pointing at the freshly
stored object — even though that update reported `False`. -/
def exFutMutated : MemFuture :=
  { exFut with
    status := "failed"
    updated_at := "2024-01-01T00:00:30"
    result := some exCacheOnly.heap.length }

/-- Witness for C10 at a concrete store. -/
theorem update_cache_only_false_but_mutates_witness :
    dictGet exCacheOnly.mem "r1" = some exFut
    ∧ dictGet exCacheOnly.db "r1" = none
    ∧ (update_status "2024-01-01T00:00:30" "r1" "failed" (some (Json.num 5)) exCacheOnly).1
        = false
    ∧ dictGet (update_status "2024-01-01T00:00:30" "r1" "failed" (some (Json.num 5))
        exCacheOnly).2.mem "r1" = some exFutMutated := by
  have h := update_cache_only_false_but_mutates exCacheOnly "2024-01-01T00:00:30" "r1"
    "failed" (Json.num 5) exFut rfl rfl
  exact ⟨rfl, rfl, h.1, h.2.1⟩

/-- Claim C3 (corrected): `get_future` does not return a defensive copy.
On a cache hit (futures.py:230-232) it returns `dict.copy()` — a fresh
top-level dict whose nested `payload`/`result` objects are shared with the
cached entry, so in-place mutation of them through the returned value is
visible to subsequent `get`s.  On a cache miss (futures.py:235-240) it
installs the loaded dict in the cache and returns that very dict — no copy
at all — so even a top-level write through the returned value alters the
store and is seen by subsequent `get`s. -/
theorem get_future_not_defensive_copy
    (s : StorageState) (request_id : String) (v : Json) (st2 : String) :
    (∀ f, dictGet s.mem request_id = some f → f.payload < s.heap.length →
        get_future request_id s = (some f, s)
        ∧ ∃ g, (get_future request_id (heapWrite f.payload v s)).1 = some g
             ∧ payloadVal (heapWrite f.payload v s) g = v)
    ∧ (dictGet s.mem request_id = none →
       ∀ row, dictGet s.db request_id = some row →
        ∃ f, (get_future request_id s).1 = some f
           ∧ dictGet (get_future request_id s).2.mem request_id = some f
           ∧ dictGet (aliasWriteStatus request_id st2
                (get_future request_id s).2).mem request_id
               = some { f with status := st2 }
           ∧ (get_future request_id (aliasWriteStatus request_id st2
                (get_future request_id s).2)).1
               = some { f with status := st2 }) := by
  constructor
  · intro f hmem ha
    constructor
    · simp [get_future, hmem]
    · refine ⟨f, ?_, ?_⟩
      · simp [get_future, heapWrite, hmem]
      · show (s.heap.set f.payload v).getD f.payload Json.null = v
        exact getD_set_self s.heap f.payload ha v Json.null
  · intro hmem row hdb
    cases h3 : row.result with
    | none =>
      simp only [get_future, load_from_db, hmem, hdb, h3, alloc, aliasWriteStatus,
        dictGet_set_self]
      refine ⟨_, rfl, rfl, ?_, ?_⟩ <;> simp [dictGet_set_self]
    | some rr =>
      simp only [get_future, load_from_db, hmem, hdb, h3, alloc, aliasWriteStatus,
        dictGet_set_self]
      refine ⟨_, rfl, rfl, ?_, ?_⟩ <;> simp [dictGet_set_self]

/-- `exCompleted` with the cache emptied: `r1` exists only as a row, so the
next `get_future` takes the miss path. -/
def exDbOnly : StorageState := { exCompleted with mem := [] }

/-- Witness for C3's corrected statement, exercising both paths: the hit
path at `exSaved` (nested-payload mutation through the shared address is
visible to the next `get`) and the miss path at `exDbOnly` (the returned
dict is the installed cache entry, and a top-level status write through that
alias is returned by the next `get`). -/
theorem get_future_not_defensive_copy_witness :
    (dictGet exSaved.mem "r1").map (·.payload) = some 0
    ∧ (0 : Nat) < exSaved.heap.length
    ∧ (∃ g, (get_future "r1" (heapWrite 0 (Json.obj [("k", Json.num 1)]) exSaved)).1 = some g
         ∧ payloadVal (heapWrite 0 (Json.obj [("k", Json.num 1)]) exSaved) g
             = Json.obj [("k", Json.num 1)])
    ∧ dictGet exDbOnly.mem "r1" = none
    ∧ dictGet exDbOnly.db "r1" = some exRow
    ∧ (∃ f, (get_future "r1" exDbOnly).1 = some f
         ∧ dictGet (get_future "r1" exDbOnly).2.mem "r1" = some f
         ∧ (get_future "r1" (aliasWriteStatus "r1" "hijacked"
              (get_future "r1" exDbOnly).2)).1 = some { f with status := "hijacked" }) := by
  refine ⟨rfl, by decide, ?_, rfl, rfl, ?_⟩
  · have h := (get_future_not_defensive_copy exSaved "r1"
      (Json.obj [("k", Json.num 1)]) "hijacked").1
      { request_id := "r1", model_id := none, operation := "op", payload := 0,
        status := "pending", result := none,
        created_at := "2024-01-01T00:00:00", updated_at := "2024-01-01T00:00:00" }
      rfl (by decide)
    exact h.2
  · have h := (get_future_not_defensive_copy exDbOnly "r1" Json.null "hijacked").2
      rfl exRow rfl
    rcases h with ⟨f, h1, h2, _, h4⟩
    exact ⟨f, h1, h2, h4⟩

/-- Counterexample to C3 as stated: the copy is shallow, so mutating the
nested payload through the value returned by `get` changes what the store
holds — the subsequent `get` no longer returns the original data.  Here the
future returned for `r1` has its payload at heap address 0; writing through
that shared reference (`returned["payload"]["k"] = 1`) makes the next `get`
see the new object instead of `exPayload`. -/
theorem get_future_not_deep_copy_cex :
    (get_future "r1" exSaved).1.map (·.payload) = some 0
    ∧ ((get_future "r1" exSaved).1.map (fun g => payloadVal exSaved g)) = some exPayload
    ∧ ((get_future "r1" (heapWrite 0 (Json.obj [("k", Json.num 1)]) exSaved)).1.map
        (fun g => payloadVal (heapWrite 0 (Json.obj [("k", Json.num 1)]) exSaved) g))
        = some (Json.obj [("k", Json.num 1)])
    ∧ Json.obj [("k", Json.num 1)] ≠ exPayload := by
  exact ⟨rfl, rfl, rfl, by simp [exPayload]⟩

/-- Claim C8 (corrected): if a future reaches a terminal state through an
`update_status` call that carried a non-`None` result and reported success
(the row existed), then a `get` after the cache is emptied returns the same
status and a structurally equal result as a `get` before the reset. -/
theorem terminal_recovery_after_cache_reset
    (s : StorageState) (now request_id st : String) (r : Json)
    (hok : (update_status now request_id st (some r) s).1 = true) :
    (∃ f1, (get_future request_id (update_status now request_id st (some r) s).2).1 = some f1
         ∧ f1.status = st
         ∧ resultVal (get_future request_id (update_status now request_id st (some r) s).2).2 f1
             = some r)
    ∧ (∃ f2, (get_future request_id
               { (update_status now request_id st (some r) s).2 with mem := [] }).1 = some f2
         ∧ f2.status = st
         ∧ resultVal (get_future request_id
               { (update_status now request_id st (some r) s).2 with mem := [] }).2 f2
             = some r) := by
  cases h1 : dictGet s.mem request_id with
  | some f =>
    cases h2 : dictGet s.db request_id with
    | none =>
      exfalso
      simp [update_status, h1, h2, alloc] at hok
    | some row =>
      simp only [update_status, h1, h2, alloc, get_future, load_from_db, resultVal,
        heapVal, dictGet_set_self]
      constructor
      · exact ⟨_, rfl, rfl, by
          simp [heapVal, getD_append_cons, getD_append_index, List.getD_cons_zero,
            List.getD_cons_succ, dictGet, List.getElem_append_right]⟩
      · refine ⟨_, rfl, rfl, ?_⟩
        simp [heapVal, getD_append_cons, getD_append_index, List.getD_cons_zero,
          List.getD_cons_succ, dictGet, List.getElem_append_right]
  | none =>
    cases h2 : dictGet s.db request_id with
    | none =>
      exfalso
      simp [update_status, load_from_db, h1, h2, alloc] at hok
    | some row =>
      cases h3 : row.result with
      | none =>
        simp only [update_status, load_from_db, h1, h2, h3, alloc, get_future, resultVal,
          heapVal, dictGet_set_self]
        constructor
        · exact ⟨_, rfl, rfl, by
            simp [heapVal, getD_append_cons, getD_append_index, List.getD_cons_zero,
              List.getD_cons_succ, dictGet, List.getElem_append_right]⟩
        · refine ⟨_, rfl, rfl, ?_⟩
          simp [heapVal, getD_append_cons, getD_append_index, List.getD_cons_zero,
            List.getD_cons_succ, dictGet, List.getElem_append_right]
      | some rr =>
        simp only [update_status, load_from_db, h1, h2, h3, alloc, get_future, resultVal,
          heapVal, dictGet_set_self]
        constructor
        · exact ⟨_, rfl, rfl, by
            simp [heapVal, getD_append_cons, getD_append_index, List.getD_cons_zero,
              List.getD_cons_succ, dictGet, List.getElem_append_right]⟩
        · refine ⟨_, rfl, rfl, ?_⟩
          simp [heapVal, getD_append_cons, getD_append_index, List.getD_cons_zero,
            List.getD_cons_succ, dictGet, List.getElem_append_right]

/-- Witness for C8's corrected statement at a concrete store. -/
theorem terminal_recovery_after_cache_reset_witness :
    (update_status "2024-01-01T00:00:10" "r1" "completed" (some exResult) exSaved).1 = true
    ∧ ((get_future "r1"
        { (update_status "2024-01-01T00:00:10" "r1" "completed" (some exResult) exSaved).2
          with mem := [] }).1.map (·.status) = some "completed") := by
  refine ⟨rfl, ?_⟩
  rcases (terminal_recovery_after_cache_reset exSaved "2024-01-01T00:00:10" "r1" "completed"
    exResult rfl).2 with ⟨f2, hf, hst, _⟩
  rw [hf]
  simp [hst]

/-- Counterexample to C8 as stated: `r1` reached the terminal state `failed`
(via an update that passed `result=None` after an earlier completed update),
the cache still answers with the old result while the row's result column is
NULL, so after a cache reset `get` returns a different result than before
the reset. -/
theorem recovery_after_reset_cex :
    ((get_future "r1" exDivergent).1.map (·.status)) = some "failed"
    ∧ ((get_future "r1" exDivergent).1.map (fun g => resultVal (get_future "r1" exDivergent).2 g))
        = some (some exResult)
    ∧ ((get_future "r1" { exDivergent with mem := [] }).1.map (·.status)) = some "failed"
    ∧ ((get_future "r1" { exDivergent with mem := [] }).1.map
        (fun g => resultVal (get_future "r1" { exDivergent with mem := [] }).2 g)) = some none
    ∧ some exResult ≠ (none : Option Json) := by
  exact ⟨rfl, rfl, rfl, rfl, by simp⟩

/-- Claim C7: `cleanup_old_futures` is idempotent — immediately repeating a
call with the same cutoff (`now − maxAge` unchanged, no intervening writes)
removes nothing and returns 0, since no entry with `created_at < cutoff`
survives the first call in either store. -/
theorem cleanup_idempotent (cutoff : String) (s : StorageState) :
    (cleanup_old_futures cutoff (cleanup_old_futures cutoff s).2).1 = 0 := by
  simp [cleanup_old_futures, List.filter_filter]

/-- Claim C6 (corrected): `cleanup_old_futures(cutoff)` deletes exactly the
cache entries and the rows whose `created_at` is lexicographically before the
cutoff, but its return value is `memory_removed + db_removed` — the number of
cache removals plus the number of row removals, which counts a future
resident in both stores twice. -/
theorem cleanup_removes_exactly
    (cutoff : String) (s : StorageState) (hm : keysNodup s.mem) (hd : keysNodup s.db) :
    (cleanup_old_futures cutoff s).1
        = (s.mem.filter (fun p => strLt p.2.created_at cutoff)).length
          + (s.db.filter (fun p => strLt p.2.created_at cutoff)).length
    ∧ (∀ k, dictGet (cleanup_old_futures cutoff s).2.mem k
        = (dictGet s.mem k).bind
            (fun f => if strLt f.created_at cutoff then none else some f))
    ∧ (∀ k, dictGet (cleanup_old_futures cutoff s).2.db k
        = (dictGet s.db k).bind
            (fun row => if strLt row.created_at cutoff then none else some row)) := by
  refine ⟨rfl, ?_, ?_⟩
  · intro k
    rw [show (cleanup_old_futures cutoff s).2.mem
          = s.mem.filter (fun p => !strLt p.2.created_at cutoff) from rfl]
    rw [dictGet_filter_nodup hm]
    exact congrArg _ (funext fun v => by
      cases hb : strLt v.created_at cutoff <;> simp [hb])
  · intro k
    rw [show (cleanup_old_futures cutoff s).2.db
          = s.db.filter (fun p => !strLt p.2.created_at cutoff) from rfl]
    rw [dictGet_filter_nodup hd]
    exact congrArg _ (funext fun v => by
      cases hb : strLt v.created_at cutoff <;> simp [hb])

/-- A second future `r2` created one day after `r1`. -/
def exTwo : StorageState :=
  save_future "2024-01-02T00:00:00" "r2" "op" (Json.num 2) none exCompleted

/-- Witness for C6's corrected statement: with the cutoff between the two
creation times, cleanup removes `r1` from both stores (reporting 2 removals)
and keeps `r2`. -/
theorem cleanup_removes_exactly_witness :
    keysNodup exTwo.mem ∧ keysNodup exTwo.db
    ∧ (cleanup_old_futures "2024-01-02T00:00:00" exTwo).1 = 2
    ∧ dictGet (cleanup_old_futures "2024-01-02T00:00:00" exTwo).2.mem "r1" = none
    ∧ dictGet (cleanup_old_futures "2024-01-02T00:00:00" exTwo).2.db "r1" = none
    ∧ (dictGet (cleanup_old_futures "2024-01-02T00:00:00" exTwo).2.mem "r2").isSome = true := by
  have h := cleanup_removes_exactly "2024-01-02T00:00:00" exTwo (by decide) (by decide)
  refine ⟨by decide, by decide, ?_, ?_, ?_, ?_⟩
  · exact h.1.trans (by decide)
  · exact (h.2.1 "r1").trans (by decide)
  · exact (h.2.2 "r1").trans (by rfl)
  · rw [h.2.1 "r2"]
    decide

/-- Counterexample to C6 as stated: a single future (`r1`, present in both
the cache and the persistent store) is removed, yet the call returns 2 — not
the count of futures removed. -/
theorem cleanup_count_double_cex :
    exSaved.mem.length = 1 ∧ exSaved.db.length = 1
    ∧ exSaved.mem.map (·.1) = ["r1"] ∧ exSaved.db.map (·.1) = ["r1"]
    ∧ (cleanup_old_futures "2024-01-02T00:00:00" exSaved).1 = 2 := by
  exact ⟨rfl, rfl, rfl, rfl, by decide⟩

theorem objGet_eq_none_of_not_hasKey (fields : List (String × Json)) (k : String)
    (h : objHasKey fields k = false) : objGet fields k = none := by
  unfold objGet
  rw [List.find?_eq_none.mpr]
  · rfl
  · intro e he hek
    have hk : objHasKey fields k = true := List.any_eq_true.mpr ⟨e, he, hek⟩
    rw [hk] at h
    cases h

theorem objGet_isSome_of_hasKey (fields : List (String × Json)) (k : String)
    (h : objHasKey fields k = true) : ∃ e, objGet fields k = some e := by
  have hs : (fields.find? (fun p => p.1 == k)).isSome :=
    List.find?_isSome.mpr (List.any_eq_true.mp h)
  rcases Option.isSome_iff_exists.mp hs with ⟨x, hx⟩
  exact ⟨x.2, by unfold objGet; rw [hx]; rfl⟩

/-- The 500-detail of the retrieval contract as amended: the value of
`result.error` when that key exists and its value is truthy (in Python's
sense — in particular not the empty string), otherwise the generic
`"Operation failed"`. -/
def specErrDetail (fv : FutureView) : Json :=
  match fv.result with
  | some (Json.obj fields) =>
    match objGet fields "error" with
    | some e => if pyTruthy e then e else Json.str "Operation failed"
    | none => Json.str "Operation failed"
  | _ => Json.str "Operation failed"

/-- On a future dict without a top-level `"error"` key (every dict built by
`FuturesStorage`), the router's failed branch produces exactly the amended
detail `specErrDetail`. -/
theorem futureResponse_failed_no_errorField (fv : FutureView)
    (hst : fv.status = "failed") (he : fv.errorField = none) :
    futureResponse fv = RetrieveResponse.err (specErrDetail fv) := by
  unfold futureResponse specErrDetail
  rw [hst, he]
  cases hr : fv.result with
  | none => simp
  | some j =>
    cases j with
    | obj fields =>
      by_cases hk : objHasKey fields "error" = true
      · rcases objGet_isSome_of_hasKey fields "error" hk with ⟨e, hek⟩
        cases fields with
        | nil => simp [objHasKey] at hk
        | cons p t => simp [hk, hek]
      · have hnone := objGet_eq_none_of_not_hasKey fields "error"
          (Bool.not_eq_true _ ▸ Bool.of_not_eq_true hk)
        simp [hk, hnone]
    | null => simp
    | bool b => simp
    | num n => simp
    | str s2 => simp
    | arr elems => simp

/-- Claim C5 (corrected): the retrieval endpoint maps the looked-up future
to exactly one of four responses — 404 when the id is unknown to storage and
to the legacy store, 408 while pending, 200 with the stored result as body
when completed, and 500 when failed with the message from `result.error` when
that value is truthy, falling back to the generic failure message when
`result.error` is absent **or falsy** (e.g. the empty string). -/
theorem retrieve_future_contract
    (request_id : String) (legacy : Dict FutureView) (s : StorageState) :
    ((get_future request_id s).1 = none → dictGet legacy request_id = none →
        (retrieve_future request_id legacy s).1 = RetrieveResponse.notFound)
    ∧ (∀ f, (get_future request_id s).1 = some f → f.status = "pending" →
        (retrieve_future request_id legacy s).1 = RetrieveResponse.stillPending)
    ∧ (∀ f, (get_future request_id s).1 = some f → f.status = "completed" →
        (retrieve_future request_id legacy s).1
          = RetrieveResponse.ok (resultVal (get_future request_id s).2 f))
    ∧ (∀ f, (get_future request_id s).1 = some f → f.status = "failed" →
        (retrieve_future request_id legacy s).1
          = RetrieveResponse.err
              (specErrDetail (MemFuture.view f (get_future request_id s).2))) := by
  rcases hE : get_future request_id s with ⟨o, s1⟩
  refine ⟨?_, ?_, ?_, ?_⟩
  · intro h1 h2
    have ho : o = none := h1
    subst ho
    simp only [retrieve_future, hE, h2]
  · intro f h1 hst
    have ho : o = some f := h1
    subst ho
    simp only [retrieve_future, hE]
    simp [futureResponse, MemFuture.view, hst]
  · intro f h1 hst
    have ho : o = some f := h1
    subst ho
    simp only [retrieve_future, hE]
    simp [futureResponse, MemFuture.view, hst]
  · intro f h1 hst
    have ho : o = some f := h1
    subst ho
    simp only [retrieve_future, hE]
    show futureResponse (MemFuture.view f s1)
        = RetrieveResponse.err (specErrDetail (MemFuture.view f s1))
    exact futureResponse_failed_no_errorField _ (by simpa [MemFuture.view] using hst) rfl

/-- `r1` failed with error message `"boom"`. -/
def exFailed : StorageState :=
  (update_status "2024-01-01T00:00:10" "r1" "failed"
    (some (Json.obj [("error", Json.str "boom")])) exSaved).2

/-- Witness for C5's corrected statement: the failed branch at a concrete
store with a truthy error message. -/
theorem retrieve_future_contract_witness :
    (get_future "r1" exFailed).1 = some { exFut with status := "failed" }
    ∧ (retrieve_future "r1" [] exFailed).1 = RetrieveResponse.err (Json.str "boom") := by
  refine ⟨rfl, ?_⟩
  have h := (retrieve_future_contract "r1" [] exFailed).2.2.2
    { exFut with status := "failed" } rfl rfl
  exact h.trans (by rfl)

/-- `r1` failed with the empty string as error message. -/
def exFailedEmptyMsg : StorageState :=
  (update_status "2024-01-01T00:00:10" "r1" "failed"
    (some (Json.obj [("error", Json.str "")])) exSaved).2

/-- Counterexample to C5 as stated: the future is failed and `result.error`
is present (the empty string), yet the endpoint's 500 detail is the generic
`"Operation failed"` — not the stored message — because the code tests
`error or "Operation failed"` on a falsy value. -/
theorem retrieve_future_falsy_error_cex :
    ((get_future "r1" exFailedEmptyMsg).1.map (·.status)) = some "failed"
    ∧ ((get_future "r1" exFailedEmptyMsg).1.map
        (fun g => resultVal (get_future "r1" exFailedEmptyMsg).2 g))
        = some (some (Json.obj [("error", Json.str "")]))
    ∧ (retrieve_future "r1" [] exFailedEmptyMsg).1
        = RetrieveResponse.err (Json.str "Operation failed")
    ∧ Json.str "Operation failed" ≠ Json.str "" := by
  exact ⟨rfl, rfl, rfl, by simp⟩

/-- Invariant: every cache entry and every row for `request_id` carries
status `t`. -/
def terminalAt (t request_id : String) (s : StorageState) : Prop :=
  (∀ f : MemFuture, (request_id, f) ∈ s.mem → f.status = t)
  ∧ (∀ row : DBRow, (request_id, row) ∈ s.db → row.status = t)

/-- `update_status` establishes the invariant for the status it writes (in
every branch: cache hit, cache miss with a row, found nowhere). -/
theorem terminalAt_after_update (s : StorageState) (now request_id t : String)
    (r : Option Json) :
    terminalAt t request_id (update_status now request_id t r s).2 := by
  cases r with
  | none =>
    cases h1 : dictGet s.mem request_id with
    | some f =>
      cases h2 : dictGet s.db request_id with
      | none =>
        simp only [update_status, h1, h2, alloc]
        constructor <;> intro x hx
        · rw [mem_dictSet_self hx]
        · exact absurd hx (not_mem_of_dictGet_none h2 x)
      | some row0 =>
        simp only [update_status, h1, h2, alloc]
        constructor <;> intro x hx
        · rw [mem_dictSet_self hx]
        · rw [mem_dictSet_self hx]
    | none =>
      cases h2 : dictGet s.db request_id with
      | none =>
        simp only [update_status, load_from_db, h1, h2, alloc]
        exact ⟨fun g hg => absurd hg (not_mem_of_dictGet_none h1 g),
               fun row hrow => absurd hrow (not_mem_of_dictGet_none h2 row)⟩
      | some row0 =>
        cases h3 : row0.result with
        | none =>
          simp only [update_status, load_from_db, h1, h2, h3, alloc]
          constructor <;> intro x hx
          · rw [mem_dictSet_self hx]
          · rw [mem_dictSet_self hx]
        | some rr =>
          simp only [update_status, load_from_db, h1, h2, h3, alloc]
          constructor <;> intro x hx
          · rw [mem_dictSet_self hx]
          · rw [mem_dictSet_self hx]
  | some rv =>
    cases h1 : dictGet s.mem request_id with
    | some f =>
      cases h2 : dictGet s.db request_id with
      | none =>
        simp only [update_status, h1, h2, alloc]
        constructor <;> intro x hx
        · rw [mem_dictSet_self hx]
        · exact absurd hx (not_mem_of_dictGet_none h2 x)
      | some row0 =>
        simp only [update_status, h1, h2, alloc]
        constructor <;> intro x hx
        · rw [mem_dictSet_self hx]
        · rw [mem_dictSet_self hx]
    | none =>
      cases h2 : dictGet s.db request_id with
      | none =>
        simp only [update_status, load_from_db, h1, h2, alloc]
        exact ⟨fun g hg => absurd hg (not_mem_of_dictGet_none h1 g),
               fun row hrow => absurd hrow (not_mem_of_dictGet_none h2 row)⟩
      | some row0 =>
        cases h3 : row0.result with
        | none =>
          simp only [update_status, load_from_db, h1, h2, h3, alloc]
          constructor <;> intro x hx
          · rw [mem_dictSet_self hx]
          · rw [mem_dictSet_self hx]
        | some rr =>
          simp only [update_status, load_from_db, h1, h2, h3, alloc]
          constructor <;> intro x hx
          · rw [mem_dictSet_self hx]
          · rw [mem_dictSet_self hx]

theorem terminalAt_mono (t request_id : String) (s s2 : StorageState)
    (hm : ∀ f : MemFuture, (request_id, f) ∈ s2.mem → (request_id, f) ∈ s.mem)
    (hd : ∀ row : DBRow, (request_id, row) ∈ s2.db → (request_id, row) ∈ s.db)
    (h : terminalAt t request_id s) : terminalAt t request_id s2 :=
  ⟨fun f hf => h.1 f (hm f hf), fun row hrow => h.2 row (hd row hrow)⟩

/-- Every operation that does not write this `request_id` (saves and updates
of other ids, any `get`, cleanup, nested-object mutation) preserves the
invariant. -/
theorem terminalAt_preserved (op : StoreOp) (request_id t : String)
    (hw : op.writesTo request_id = false) (s : StorageState)
    (h : terminalAt t request_id s) : terminalAt t request_id (op.exec s) := by
  cases op with
  | save now2 id2 op2 p mid =>
    have hne : request_id ≠ id2 := by
      intro e
      simp [StoreOp.writesTo, e] at hw
    simp only [StoreOp.exec, save_future, alloc]
    exact terminalAt_mono t request_id s _
      (fun f hf => mem_dictSet_ne hne hf)
      (fun row hrow => mem_dictSet_ne hne hrow) h
  | update now2 id2 st2 r2 =>
    have hne : request_id ≠ id2 := by
      intro e
      simp [StoreOp.writesTo, e] at hw
    simp only [StoreOp.exec]
    cases r2 with
    | none =>
      cases h1 : dictGet s.mem id2 with
      | some g =>
        cases h2 : dictGet s.db id2 with
        | none =>
          simp only [update_status, h1, h2, alloc]
          exact terminalAt_mono t request_id s _
            (fun f hf => mem_dictSet_ne hne hf) (fun row hrow => hrow) h
        | some row0 =>
          simp only [update_status, h1, h2, alloc]
          exact terminalAt_mono t request_id s _
            (fun f hf => mem_dictSet_ne hne hf)
            (fun row hrow => mem_dictSet_ne hne hrow) h
      | none =>
        cases h2 : dictGet s.db id2 with
        | none =>
          simp only [update_status, load_from_db, h1, h2, alloc]
          exact h
        | some row0 =>
          cases h3 : row0.result with
          | none =>
            simp only [update_status, load_from_db, h1, h2, h3, alloc]
            exact terminalAt_mono t request_id s _
              (fun f hf => mem_dictSet_ne hne (mem_dictSet_ne hne hf))
              (fun row hrow => mem_dictSet_ne hne hrow) h
          | some rr =>
            simp only [update_status, load_from_db, h1, h2, h3, alloc]
            exact terminalAt_mono t request_id s _
              (fun f hf => mem_dictSet_ne hne (mem_dictSet_ne hne hf))
              (fun row hrow => mem_dictSet_ne hne hrow) h
    | some rv =>
      cases h1 : dictGet s.mem id2 with
      | some g =>
        cases h2 : dictGet s.db id2 with
        | none =>
          simp only [update_status, h1, h2, alloc]
          exact terminalAt_mono t request_id s _
            (fun f hf => mem_dictSet_ne hne hf) (fun row hrow => hrow) h
        | some row0 =>
          simp only [update_status, h1, h2, alloc]
          exact terminalAt_mono t request_id s _
            (fun f hf => mem_dictSet_ne hne hf)
            (fun row hrow => mem_dictSet_ne hne hrow) h
      | none =>
        cases h2 : dictGet s.db id2 with
        | none =>
          simp only [update_status, load_from_db, h1, h2, alloc]
          exact h
        | some row0 =>
          cases h3 : row0.result with
          | none =>
            simp only [update_status, load_from_db, h1, h2, h3, alloc]
            exact terminalAt_mono t request_id s _
              (fun f hf => mem_dictSet_ne hne (mem_dictSet_ne hne hf))
              (fun row hrow => mem_dictSet_ne hne hrow) h
          | some rr =>
            simp only [update_status, load_from_db, h1, h2, h3, alloc]
            exact terminalAt_mono t request_id s _
              (fun f hf => mem_dictSet_ne hne (mem_dictSet_ne hne hf))
              (fun row hrow => mem_dictSet_ne hne hrow) h
  | get id2 =>
    simp only [StoreOp.exec]
    cases h1 : dictGet s.mem id2 with
    | some g =>
      simp only [get_future, h1]
      exact h
    | none =>
      cases h2 : dictGet s.db id2 with
      | none =>
        simp only [get_future, load_from_db, h1, h2]
        exact h
      | some row0 =>
        have hrow0 : row0.status = t ∨ request_id ≠ id2 := by
          by_cases hid : request_id = id2
          · subst hid
            exact Or.inl (h.2 row0 (mem_of_dictGet h2))
          · exact Or.inr hid
        cases h3 : row0.result with
        | none =>
          simp only [get_future, load_from_db, h1, h2, h3, alloc]
          refine ⟨fun f hf => ?_, h.2⟩
          by_cases hid : request_id = id2
          · subst hid
            rw [mem_dictSet_self hf]
            rcases hrow0 with ht | hne
            · exact ht
            · exact absurd rfl hne
          · exact h.1 f (mem_dictSet_ne hid hf)
        | some rr =>
          simp only [get_future, load_from_db, h1, h2, h3, alloc]
          refine ⟨fun f hf => ?_, h.2⟩
          by_cases hid : request_id = id2
          · subst hid
            rw [mem_dictSet_self hf]
            rcases hrow0 with ht | hne
            · exact ht
            · exact absurd rfl hne
          · exact h.1 f (mem_dictSet_ne hid hf)
  | cleanup c =>
    simp only [StoreOp.exec, cleanup_old_futures]
    exact terminalAt_mono t request_id s _
      (fun f hf => List.mem_of_mem_filter hf)
      (fun row hrow => List.mem_of_mem_filter hrow) h
  | mutate a v =>
    simp only [StoreOp.exec, heapWrite]
    exact h

theorem terminalAt_execTrace (ops : List StoreOp) (request_id t : String)
    (hw : ∀ op ∈ ops, op.writesTo request_id = false) (s : StorageState)
    (h : terminalAt t request_id s) : terminalAt t request_id (execTrace ops s) := by
  induction ops generalizing s with
  | nil => exact h
  | cons op rest ih =>
    exact ih (fun o ho => hw o (List.mem_cons_of_mem op ho)) (op.exec s)
      (terminalAt_preserved op request_id t (hw op (List.mem_cons_self op rest)) s h)

/-- Under the invariant, any future `get_future` returns (from the cache or
loaded from a row) carries status `t`. -/
theorem get_status_of_terminalAt (s : StorageState) (request_id t : String)
    (h : terminalAt t request_id s)
    (f : MemFuture) (hf : (get_future request_id s).1 = some f) : f.status = t := by
  cases h1 : dictGet s.mem request_id with
  | some g =>
    simp only [get_future, h1, Option.some.injEq] at hf
    rw [← hf]
    exact h.1 g (mem_of_dictGet h1)
  | none =>
    cases h2 : dictGet s.db request_id with
    | none =>
      simp only [get_future, load_from_db, h1, h2] at hf
      exact Option.noConfusion hf
    | some row0 =>
      cases h3 : row0.result with
      | none =>
        simp only [get_future, load_from_db, h1, h2, h3, alloc, Option.some.injEq] at hf
        rw [← hf]
        exact h.2 row0 (mem_of_dictGet h2)
      | some rr =>
        simp only [get_future, load_from_db, h1, h2, h3, alloc, Option.some.injEq] at hf
        rw [← hf]
        exact h.2 row0 (mem_of_dictGet h2)

/-- Claim C1 (corrected): `update_status` itself enforces no transition
discipline — it writes whatever status it is given (see the counterexample).
What does hold: once an `update_status` call has set a future's status to a
terminal value `t` (completed or failed), then along any continuation made of
operations none of which writes that `request_id` again (gets of any id,
saves/updates of other ids, cleanups, nested-object mutations), every
`get_future` of the id that returns a future shows status `t` — never
pending and never the other terminal status. -/
theorem update_terminal_sticky
    (s : StorageState) (now request_id t : String) (r : Option Json)
    (ht : t = "completed" ∨ t = "failed")
    (ops : List StoreOp) (hw : ∀ op ∈ ops, op.writesTo request_id = false) :
    ∀ f, (get_future request_id
            (execTrace ops (update_status now request_id t r s).2)).1 = some f →
      f.status = t := by
  intro f hf
  exact get_status_of_terminalAt _ request_id t
    (terminalAt_execTrace ops request_id t hw _ (terminalAt_after_update s now request_id t r))
    f hf

/-- A trace of operations none of which writes `r1`: reads of `r1`, a
cleanup with an early cutoff, a save and update of another id, and an
in-place mutation of a nested object. -/
def exTrace : List StoreOp :=
  [StoreOp.get "r1",
   StoreOp.cleanup "2023-12-31T00:00:00",
   StoreOp.save "2024-01-02T00:00:00" "r2" "op" (Json.num 2) none,
   StoreOp.update "2024-01-02T00:00:01" "r2" "completed" none,
   StoreOp.get "r1",
   StoreOp.mutate 0 Json.null]

/-- Witness for C1's corrected statement along the concrete trace. -/
theorem update_terminal_sticky_witness :
    ((get_future "r1" (execTrace exTrace
        (update_status "2024-01-01T00:00:10" "r1" "completed" (some exResult)
          exSaved).2)).1.map (·.status)) = some "completed" := by
  have h := update_terminal_sticky exSaved "2024-01-01T00:00:10" "r1" "completed"
    (some exResult) (Or.inl rfl) exTrace (by decide)
  cases hg : (get_future "r1" (execTrace exTrace
      (update_status "2024-01-01T00:00:10" "r1" "completed" (some exResult)
        exSaved).2)).1 with
  | none => exact absurd hg (by decide)
  | some fc =>
    simp [h fc hg]

/-- Counterexample to C1 as stated: nothing stops a later `update_status`
call from writing `pending` again — after completing `r1`, an update with
status `pending` makes the next `get` show `pending`. -/
theorem update_terminal_not_enforced_cex :
    ((get_future "r1" exCompleted).1.map (·.status)) = some "completed"
    ∧ ((get_future "r1"
         (update_status "2024-01-01T00:00:30" "r1" "pending" none exCompleted).2).1.map
        (·.status)) = some "pending" := by
  exact ⟨rfl, rfl⟩
